import Mathlib

/-!
Formal model of the bond pricing core (`bond-pricer.py`).

The numeric core of the program is embedded shallowly over the exact
rationals `ℚ`.  Python operations that can raise (`KeyError` on an unknown
frequency label, `ZeroDivisionError` when a discount factor vanishes) are
modelled with `Option`: `none` is the raised error, `some v` the returned
value.  Python `int()` applied to a nonnegative real truncates toward zero,
modelled by `pyInt`.  Python `x ** n` with an integer `n` is the field
`zpow`; note that in Python `0.0 ** 0 = 1.0` while `0.0 ** i` for `i ≥ 1`
is `0.0` (so a subsequent division raises), and `0.0 ** i` for `i < 0`
raises — hence the error condition `1 + rate = 0 ∧ periods ≠ 0` attached to
every discounted sum below.

`calculate_accrued_interest` in the source reads the ambient wall clock via
`date.today()`; the clock value it observes is made explicit here as the
extra argument `today`, so that the dependence of the result on the ambient
clock is expressible.
-/

/-- `get_payments_per_year` from the source: the four-entry frequency table.
A label outside the table raises `KeyError` in Python, modelled as `none`. -/
def get_payments_per_year (frequency : String) : Option ℕ :=
  if frequency = "Annual" then some 1
  else if frequency = "Semi-annual" then some 2
  else if frequency = "Quarterly" then some 4
  else if frequency = "Monthly" then some 12
  else none

/-- `adjust_rates_for_frequency` from the source: divide an annual rate by
the payments-per-year count obtained from the frequency table. -/
def adjust_rates_for_frequency (rate : ℚ) (frequency : String) : Option ℚ :=
  (get_payments_per_year frequency).map (fun m => rate / (m : ℚ))

/-- Python `int()` on a rational: truncation toward zero. -/
def pyInt (q : ℚ) : ℤ := if q < 0 then -(⌊-q⌋) else ⌊q⌋

/-- The accumulation loop `for i in range(1, periods + 1): acc += cp / (1 + r) ** i`
shared by `bond_pricer` and the inner `npv` of the yield solver. -/
def couponLoop (cp r : ℚ) : ℕ → ℚ
  | 0 => 0
  | n + 1 => couponLoop cp r n + cp / (1 + r) ^ (n + 1)

/-- `bond_pricer` from the source.  `periods = int(years_to_maturity * payments_per_year)`;
the coupon loop runs for `i = 1 .. periods`; the face value discounted over
`periods` periods is added at the end.  `none` models the `KeyError` of an
unknown frequency and the `ZeroDivisionError` arising when
`1 + periodic_discount_rate = 0` and the exponent is nonzero. -/
def bond_pricer (face_value coupon_rate years_to_maturity discount_rate : ℚ)
    (frequency : String) : Option ℚ :=
  match get_payments_per_year frequency,
        adjust_rates_for_frequency coupon_rate frequency,
        adjust_rates_for_frequency discount_rate frequency with
  | some m, some pcr, some pdr =>
      let periods : ℤ := pyInt (years_to_maturity * (m : ℚ))
      if 1 + pdr = 0 ∧ periods ≠ 0 then none
      else some (couponLoop (face_value * pcr) pdr periods.toNat
                  + face_value / (1 + pdr) ^ periods)
  | _, _, _ => none

/-- The inner `npv` closure of `calculate_yield_to_maturity`:
`-price` plus the discounted cash flows at periodic yield `ytm / m`. -/
def npv (face_value pcr price : ℚ) (periods : ℤ) (m : ℕ) (ytm : ℚ) : Option ℚ :=
  if 1 + ytm / (m : ℚ) = 0 ∧ periods ≠ 0 then none
  else some (-price + couponLoop (face_value * pcr) (ytm / (m : ℚ)) periods.toNat
              + face_value / (1 + ytm / (m : ℚ)) ^ periods)

/-- The binary-search loop of `calculate_yield_to_maturity`:
`mid = (low + high) / 2; if npv(mid) > 0: low = mid else: high = mid`,
iterated a fixed number of times; an error in `npv` propagates. -/
def bisect (f : ℚ → Option ℚ) : ℕ → ℚ → ℚ → Option (ℚ × ℚ)
  | 0, low, high => some (low, high)
  | n + 1, low, high =>
      match f ((low + high) / 2) with
      | none => none
      | some v =>
          if 0 < v then bisect f n ((low + high) / 2) high
          else bisect f n low ((low + high) / 2)

/-- `calculate_yield_to_maturity` from the source: 50 bisection steps on
`[0, 1]`, returning the midpoint of the final bracket. -/
def calculate_yield_to_maturity (face_value coupon_rate years_to_maturity price : ℚ)
    (frequency : String) : Option ℚ :=
  match get_payments_per_year frequency, adjust_rates_for_frequency coupon_rate frequency with
  | some m, some pcr =>
      (bisect (npv face_value pcr price (pyInt (years_to_maturity * (m : ℚ))) m) 50 0 1).map
        (fun lh => (lh.1 + lh.2) / 2)
  | _, _ => none

/-- The loop of `calculate_duration`: accumulates
`(weighted_time, pv_total)` over `i = 1 .. n` with
`pv = cp / (1 + r) ^ i` and time weight `i / m`. -/
def durationLoop (cp r : ℚ) (m : ℕ) : ℕ → ℚ × ℚ
  | 0 => (0, 0)
  | n + 1 =>
      let prev := durationLoop cp r m n
      (prev.1 + (((n + 1 : ℕ) : ℚ) / (m : ℚ)) * (cp / (1 + r) ^ (n + 1)),
       prev.2 + cp / (1 + r) ^ (n + 1))

/-- `calculate_duration` from the source.  The face-value term is weighted by
`years_to_maturity` (not by `periods / payments_per_year`).  `none` models
`KeyError` and the `ZeroDivisionError` cases: a vanishing discount factor
`1 + pdr = 0` (raised in the loop when `periods ≠ 0`, or at the
modified-duration division when `periods = 0`) and a vanishing `pv_total`. -/
def calculate_duration (face_value coupon_rate years_to_maturity discount_rate : ℚ)
    (frequency : String) : Option (ℚ × ℚ) :=
  match get_payments_per_year frequency,
        adjust_rates_for_frequency coupon_rate frequency,
        adjust_rates_for_frequency discount_rate frequency with
  | some m, some pcr, some pdr =>
      let periods : ℤ := pyInt (years_to_maturity * (m : ℚ))
      let acc := durationLoop (face_value * pcr) pdr m periods.toNat
      let finalPV := face_value / (1 + pdr) ^ periods
      let weighted := acc.1 + years_to_maturity * finalPV
      let pvTotal := acc.2 + finalPV
      if 1 + pdr = 0 ∨ pvTotal = 0 then none
      else some (weighted / pvTotal, weighted / pvTotal / (1 + pdr))
  | _, _, _ => none

/-- The loop of `calculate_convexity`: accumulates
`(weighted_squares, pv_total)` with weight `t * (t + 1 / m)` for
`t = i / m`. -/
def convexityLoop (cp r : ℚ) (m : ℕ) : ℕ → ℚ × ℚ
  | 0 => (0, 0)
  | n + 1 =>
      let prev := convexityLoop cp r m n
      (prev.1 + (((n + 1 : ℕ) : ℚ) / (m : ℚ)) * ((((n + 1 : ℕ) : ℚ) / (m : ℚ)) + 1 / (m : ℚ))
          * (cp / (1 + r) ^ (n + 1)),
       prev.2 + cp / (1 + r) ^ (n + 1))

/-- `calculate_convexity` from the source.  The face-value term is weighted by
`years_to_maturity * (years_to_maturity + 1 / m)`.  The final division is by
`pv_total * (1 + pdr) ^ 2`, which vanishes exactly when `pv_total = 0` or
`1 + pdr = 0`. -/
def calculate_convexity (face_value coupon_rate years_to_maturity discount_rate : ℚ)
    (frequency : String) : Option ℚ :=
  match get_payments_per_year frequency,
        adjust_rates_for_frequency coupon_rate frequency,
        adjust_rates_for_frequency discount_rate frequency with
  | some m, some pcr, some pdr =>
      let periods : ℤ := pyInt (years_to_maturity * (m : ℚ))
      let acc := convexityLoop (face_value * pcr) pdr m periods.toNat
      let finalPV := face_value / (1 + pdr) ^ periods
      let weighted := acc.1 + years_to_maturity * (years_to_maturity + 1 / (m : ℚ)) * finalPV
      let pvTotal := acc.2 + finalPV
      if 1 + pdr = 0 ∨ pvTotal = 0 then none
      else some (weighted / (pvTotal * (1 + pdr) ^ 2))
  | _, _, _ => none

/-- `calculate_accrued_interest` from the source.  The Python function reads
`date.today()` internally; the clock value it observes is the explicit
argument `today` here (a day number; `last_payment_date` likewise), so
`today - last_payment_date` is the whole-day difference `.days`. -/
def calculate_accrued_interest (face_value coupon_rate : ℚ) (last_payment_date : ℤ)
    (frequency : String) (today : ℤ) : Option ℚ :=
  match get_payments_per_year frequency, adjust_rates_for_frequency coupon_rate frequency with
  | some m, some pcr =>
      some ((((today - last_payment_date : ℤ) : ℚ) / ((360 : ℚ) / (m : ℚ)))
            * (face_value * pcr))
  | _, _ => none

/-- Modelled from the spec: the present value of period `i` in the reference
schedule of §4.4 — the periodic coupon at every period, the face value added
at the final period `p`, discounted at the periodic rate. -/
def specPV (face_value cp pr : ℚ) (p i : ℕ) : ℚ :=
  (if i = p then cp + face_value else cp) / (1 + pr) ^ i

/-- Modelled from the spec: Macaulay duration
`Σ(time_i × pv_i) / Σ(pv_i)` with `time_i = i / m` for every period
including the final one. -/
def specMacaulay (face_value cp pr : ℚ) (m p : ℕ) : ℚ :=
  (∑ i ∈ Finset.Icc 1 p, ((i : ℚ) / (m : ℚ)) * specPV face_value cp pr p i)
    / ∑ i ∈ Finset.Icc 1 p, specPV face_value cp pr p i

/-- Modelled from the spec: modified duration = Macaulay / (1 + periodic rate). -/
def specModified (face_value cp pr : ℚ) (m p : ℕ) : ℚ :=
  specMacaulay face_value cp pr m p / (1 + pr)

/-- Modelled from the spec: convexity
`Σ(time_i × (time_i + 1/m) × pv_i) / (Σ(pv_i) × (1 + pr)^2)` with
`time_i = i / m` for every period including the final one. -/
def specConvexity (face_value cp pr : ℚ) (m p : ℕ) : ℚ :=
  (∑ i ∈ Finset.Icc 1 p, ((i : ℚ) / (m : ℚ)) * (((i : ℚ) / (m : ℚ)) + 1 / (m : ℚ))
      * specPV face_value cp pr p i)
    / ((∑ i ∈ Finset.Icc 1 p, specPV face_value cp pr p i) * (1 + pr) ^ 2)

/-! ### Basic lemmas about the frequency table and helpers -/

lemma get_payments_per_year_cases {f : String} {m : ℕ}
    (h : get_payments_per_year f = some m) : m = 1 ∨ m = 2 ∨ m = 4 ∨ m = 12 := by
  unfold get_payments_per_year at h
  split_ifs at h <;> simp_all

lemma get_payments_per_year_pos {f : String} {m : ℕ}
    (h : get_payments_per_year f = some m) : 0 < m := by
  rcases get_payments_per_year_cases h with h | h | h | h <;> omega

lemma get_payments_per_year_cast_pos {f : String} {m : ℕ}
    (h : get_payments_per_year f = some m) : 0 < (m : ℚ) := by
  exact_mod_cast get_payments_per_year_pos h

lemma adjust_eq {f : String} {m : ℕ} (h : get_payments_per_year f = some m) (rate : ℚ) :
    adjust_rates_for_frequency rate f = some (rate / (m : ℚ)) := by
  simp [adjust_rates_for_frequency, h]

lemma zpow_nonneg_toNat (x : ℚ) {P : ℤ} (h : 0 ≤ P) : x ^ P = x ^ P.toNat := by
  conv_lhs => rw [← Int.toNat_of_nonneg h]
  exact zpow_natCast x P.toNat

lemma couponLoop_eq_sum (cp r : ℚ) (n : ℕ) :
    couponLoop cp r n = ∑ i ∈ Finset.Icc 1 n, cp / (1 + r) ^ i := by
  induction n with
  | zero => simp [couponLoop]
  | succ n ih =>
      rw [couponLoop, ih, Finset.sum_Icc_succ_top (by omega : 1 ≤ n + 1)]

lemma bond_pricer_eq {f : String} {m : ℕ} (hm : get_payments_per_year f = some m)
    (face coupon years rate : ℚ) (hr : 1 + rate / (m : ℚ) ≠ 0) :
    bond_pricer face coupon years rate f
      = some (couponLoop (face * (coupon / (m : ℚ))) (rate / (m : ℚ))
                (pyInt (years * (m : ℚ))).toNat
              + face / (1 + rate / (m : ℚ)) ^ (pyInt (years * (m : ℚ)))) := by
  unfold bond_pricer
  rw [hm, adjust_eq hm, adjust_eq hm]
  exact if_neg (fun hc => hr hc.1)

lemma bond_pricer_div_zero {f : String} {m : ℕ} (hm : get_payments_per_year f = some m)
    (face coupon years rate : ℚ) (hr : 1 + rate / (m : ℚ) = 0)
    (hp : pyInt (years * (m : ℚ)) ≠ 0) :
    bond_pricer face coupon years rate f = none := by
  unfold bond_pricer
  rw [hm, adjust_eq hm, adjust_eq hm]
  exact if_pos ⟨hr, hp⟩

lemma pyInt_ge_one {q : ℚ} (h : 1 ≤ q) : 1 ≤ pyInt q := by
  unfold pyInt
  rw [if_neg (by linarith : ¬q < 0)]
  exact Int.le_floor.mpr (by exact_mod_cast h)

lemma get_annual : get_payments_per_year "Annual" = some 1 := rfl

lemma get_semiannual : get_payments_per_year "Semi-annual" = some 2 := rfl

lemma get_quarterly : get_payments_per_year "Quarterly" = some 4 := rfl

lemma get_monthly : get_payments_per_year "Monthly" = some 12 := rfl

/-- C8: `get_payments_per_year` returns 1 for "Annual", 2 for "Semi-annual",
4 for "Quarterly" and 12 for "Monthly", and fails (raises `KeyError`,
modelled as `none`) for every label outside that four-element set. -/
theorem get_payments_per_year_spec :
    get_payments_per_year "Annual" = some 1 ∧
    get_payments_per_year "Semi-annual" = some 2 ∧
    get_payments_per_year "Quarterly" = some 4 ∧
    get_payments_per_year "Monthly" = some 12 ∧
    ∀ s : String, s ≠ "Annual" → s ≠ "Semi-annual" → s ≠ "Quarterly" → s ≠ "Monthly" →
      get_payments_per_year s = none := by
  refine ⟨rfl, rfl, rfl, rfl, fun s h1 h2 h3 h4 => ?_⟩
  simp [get_payments_per_year, h1, h2, h3, h4]

/-- Witness for C8 at the concrete unsupported label "Weekly". -/
theorem get_payments_per_year_spec_witness :
    ("Weekly" : String) ≠ "Annual" ∧ ("Weekly" : String) ≠ "Semi-annual" ∧
    ("Weekly" : String) ≠ "Quarterly" ∧ ("Weekly" : String) ≠ "Monthly" ∧
    get_payments_per_year "Weekly" = none :=
  ⟨by decide, by decide, by decide, by decide,
    get_payments_per_year_spec.2.2.2.2 "Weekly" (by decide) (by decide) (by decide) (by decide)⟩

/-- C10: when `int(years_to_maturity * payments_per_year) = 0`, `bond_pricer`
raises no error; the coupon loop is empty, the face-value exponent is `0`
(and Python evaluates `0.0 ** 0` to `1.0`), so the function returns exactly
`face_value`, for every discount rate. -/
theorem bond_pricer_zero_periods (face coupon years : ℚ) (f : String) (m : ℕ)
    (hm : get_payments_per_year f = some m)
    (hp : pyInt (years * (m : ℚ)) = 0) :
    ∀ rate : ℚ, bond_pricer face coupon years rate f = some face := by
  intro rate
  unfold bond_pricer
  rw [hm, adjust_eq hm, adjust_eq hm]
  dsimp only
  rw [hp]
  simp [couponLoop]

/-- Witness for C10: a half-year bond at Annual frequency has `periods = 0`
and prices to its face value even at the degenerate rate `-1`. -/
theorem bond_pricer_zero_periods_witness :
    get_payments_per_year "Annual" = some 1 ∧
    pyInt ((1 / 2 : ℚ) * ((1 : ℕ) : ℚ)) = 0 ∧
    bond_pricer 1000 (1 / 20) (1 / 2) (-1) "Annual" = some 1000 :=
  ⟨rfl, by norm_num [pyInt],
    bond_pricer_zero_periods 1000 (1 / 20) (1 / 2) "Annual" 1 rfl (by norm_num [pyInt]) (-1)⟩

/-- C3 (code evidence): the result of `calculate_accrued_interest` depends on
the value the ambient clock (`date.today()`) happens to return — with every
explicit Python argument fixed, observing day 0 and observing day 360 give
different results, so the operation is not a function of its explicit
arguments alone. -/
theorem accrued_interest_depends_on_clock :
    calculate_accrued_interest 1000 (1 / 10) 0 "Annual" 0 = some 0 ∧
    calculate_accrued_interest 1000 (1 / 10) 0 "Annual" 360 = some 100 ∧
    some (0 : ℚ) ≠ some (100 : ℚ) := by
  refine ⟨?_, ?_, by simp⟩ <;>
    norm_num [calculate_accrued_interest, get_payments_per_year, adjust_rates_for_frequency]

/-- C9: accrued interest equals
`(days_elapsed / (360 / m)) * (face_value * coupon_rate / m)`; it is `0`
when the as-of day equals the last payment day; it is the linear function
`days_elapsed * face_value * coupon_rate / 360` of the elapsed days; and it
is not clamped: once the elapsed days exceed one payment period the result
exceeds one full periodic coupon. -/
theorem accrued_interest_spec (face coupon : ℚ) (last asof : ℤ) (f : String) (m : ℕ)
    (hm : get_payments_per_year f = some m) :
    calculate_accrued_interest face coupon last f asof
      = some ((((asof - last : ℤ) : ℚ) / ((360 : ℚ) / (m : ℚ))) * (face * (coupon / (m : ℚ)))) ∧
    (asof = last → calculate_accrued_interest face coupon last f asof = some 0) ∧
    calculate_accrued_interest face coupon last f asof
      = some (((asof - last : ℤ) : ℚ) * (face * coupon / 360)) ∧
    (0 < face → 0 < coupon → (360 : ℚ) / (m : ℚ) < ((asof - last : ℤ) : ℚ) →
      ∀ v, calculate_accrued_interest face coupon last f asof = some v →
        face * (coupon / (m : ℚ)) < v) := by
  have hm0 : (0 : ℚ) < (m : ℚ) := get_payments_per_year_cast_pos hm
  have heval : calculate_accrued_interest face coupon last f asof
      = some ((((asof - last : ℤ) : ℚ) / ((360 : ℚ) / (m : ℚ))) * (face * (coupon / (m : ℚ)))) := by
    unfold calculate_accrued_interest
    rw [hm, adjust_eq hm]
  have hlin : (((asof - last : ℤ) : ℚ) / ((360 : ℚ) / (m : ℚ))) * (face * (coupon / (m : ℚ)))
      = ((asof - last : ℤ) : ℚ) * (face * coupon / 360) := by
    field_simp
    ring
  refine ⟨heval, ?_, ?_, ?_⟩
  · intro h
    rw [heval, h]
    simp
  · rw [heval, hlin]
  · intro hface hcoupon hdays v hv
    rw [heval, hlin] at hv
    have hv2 : v = ((asof - last : ℤ) : ℚ) * (face * coupon / 360) := by
      exact (Option.some_injective ℚ hv.symm)
    have hslope : (0 : ℚ) < face * coupon / 360 := by positivity
    have hstep : ((360 : ℚ) / (m : ℚ)) * (face * coupon / 360)
        < ((asof - last : ℤ) : ℚ) * (face * coupon / 360) :=
      mul_lt_mul_of_pos_right hdays hslope
    have heqc : ((360 : ℚ) / (m : ℚ)) * (face * coupon / 360) = face * (coupon / (m : ℚ)) := by
      field_simp
      ring
    rw [hv2]
    calc face * (coupon / (m : ℚ)) = ((360 : ℚ) / (m : ℚ)) * (face * coupon / 360) := heqc.symm
      _ < ((asof - last : ℤ) : ℚ) * (face * coupon / 360) := hstep

/-- Witness for C9: Annual frequency, 400 elapsed days (more than one
360-day period), face 1000, coupon 10%. -/
theorem accrued_interest_spec_witness :
    get_payments_per_year "Annual" = some 1 ∧
    calculate_accrued_interest 1000 (1 / 10) 0 "Annual" 400
      = some (((400 - 0 : ℤ) : ℚ) * (1000 * (1 / 10) / 360)) :=
  ⟨rfl, (accrued_interest_spec 1000 (1 / 10) 0 400 "Annual" 1 rfl).2.2.1⟩

/-- C4: for a supported frequency with `periods ≥ 1` and a discount rate
whose periodic discount factor does not vanish, `bond_pricer` returns
exactly `Σ_{i=1..periods} coupon_payment / (1+pdr)^i + face / (1+pdr)^periods`
with `coupon_payment = face * (coupon_rate / m)` and `pdr = discount_rate / m`. -/
theorem bond_pricer_formula (face coupon years rate : ℚ) (f : String) (m : ℕ)
    (hm : get_payments_per_year f = some m)
    (hp : 1 ≤ pyInt (years * (m : ℚ)))
    (hr : 1 + rate / (m : ℚ) ≠ 0) :
    bond_pricer face coupon years rate f
      = some ((∑ i ∈ Finset.Icc 1 (pyInt (years * (m : ℚ))).toNat,
                face * (coupon / (m : ℚ)) / (1 + rate / (m : ℚ)) ^ i)
              + face / (1 + rate / (m : ℚ)) ^ (pyInt (years * (m : ℚ))).toNat) := by
  rw [bond_pricer_eq hm face coupon years rate hr, couponLoop_eq_sum,
    zpow_nonneg_toNat _ (by omega : (0 : ℤ) ≤ pyInt (years * (m : ℚ)))]

/-- Witness for C4: 2-year Annual bond, 5% coupon, 10% discount rate. -/
theorem bond_pricer_formula_witness :
    get_payments_per_year "Annual" = some 1 ∧
    1 ≤ pyInt ((2 : ℚ) * ((1 : ℕ) : ℚ)) ∧
    (1 : ℚ) + (1 / 10) / ((1 : ℕ) : ℚ) ≠ 0 ∧
    bond_pricer 1000 (1 / 20) 2 (1 / 10) "Annual"
      = some ((∑ i ∈ Finset.Icc 1 (pyInt ((2 : ℚ) * ((1 : ℕ) : ℚ))).toNat,
                (1000 : ℚ) * ((1 / 20) / ((1 : ℕ) : ℚ)) / (1 + (1 / 10) / ((1 : ℕ) : ℚ)) ^ i)
              + 1000 / (1 + (1 / 10) / ((1 : ℕ) : ℚ)) ^ (pyInt ((2 : ℚ) * ((1 : ℕ) : ℚ))).toNat) := by
  refine ⟨rfl, by norm_num [pyInt], by norm_num, ?_⟩
  exact bond_pricer_formula 1000 (1 / 20) 2 (1 / 10) "Annual" 1 rfl
    (by norm_num [pyInt]) (by norm_num)

/-- C5 (counterexample to the claim as stated): at `discount_rate = -1` with
Semi-annual frequency the periodic discount rate is `-1/2`, no discount
factor vanishes, and `bond_pricer` returns a value instead of failing. -/
theorem bond_pricer_neg_one_semiannual_succeeds :
    (bond_pricer 1000 (1 / 20) 1 (-1) "Semi-annual").isSome = true := by
  rw [bond_pricer_eq get_semiannual 1000 (1 / 20) 1 (-1) (by push_cast; norm_num)]
  rfl

/-- C5 (amended): with `discount_rate = -1` the division by zero — hence the
failure — occurs exactly at Annual frequency (periodic rate `-1`); at
Semi-annual, Quarterly and Monthly frequency the periodic rate is `-1/m ≠ -1`
and the computation returns a value. -/
theorem bond_pricer_neg_one_rate (face coupon years : ℚ) (hy : 1 ≤ years) :
    bond_pricer face coupon years (-1) "Annual" = none ∧
    (bond_pricer face coupon years (-1) "Semi-annual").isSome = true ∧
    (bond_pricer face coupon years (-1) "Quarterly").isSome = true ∧
    (bond_pricer face coupon years (-1) "Monthly").isSome = true := by
  have hper : pyInt (years * ((1 : ℕ) : ℚ)) ≠ 0 := by
    have h1 : (1 : ℤ) ≤ pyInt (years * ((1 : ℕ) : ℚ)) := by
      apply pyInt_ge_one
      push_cast
      linarith
    omega
  refine ⟨bond_pricer_div_zero get_annual face coupon years (-1) (by push_cast; norm_num) hper,
    ?_, ?_, ?_⟩
  · rw [bond_pricer_eq get_semiannual face coupon years (-1) (by push_cast; norm_num)]
    rfl
  · rw [bond_pricer_eq get_quarterly face coupon years (-1) (by push_cast; norm_num)]
    rfl
  · rw [bond_pricer_eq get_monthly face coupon years (-1) (by push_cast; norm_num)]
    rfl

/-- Witness for C5 (amended) at a one-year bond. -/
theorem bond_pricer_neg_one_rate_witness :
    (1 : ℚ) ≤ 1 ∧
    bond_pricer 1000 (1 / 20) 1 (-1) "Annual" = none ∧
    (bond_pricer 1000 (1 / 20) 1 (-1) "Monthly").isSome = true :=
  ⟨le_refl 1, (bond_pricer_neg_one_rate 1000 (1 / 20) 1 (le_refl 1)).1,
    (bond_pricer_neg_one_rate 1000 (1 / 20) 1 (le_refl 1)).2.2.2⟩

/-! ### Monotonicity of the discounted cash-flow sum in the rate -/

lemma couponLoop_anti (cp : ℚ) (hcp : 0 ≤ cp) {r1 r2 : ℚ} (h1 : 0 < 1 + r1) (h12 : r1 ≤ r2)
    (n : ℕ) : couponLoop cp r2 n ≤ couponLoop cp r1 n := by
  induction n with
  | zero => simp [couponLoop]
  | succ n ih =>
      have hpow1 : 0 < (1 + r1) ^ (n + 1) := pow_pos h1 _
      have hpow : (1 + r1) ^ (n + 1) ≤ (1 + r2) ^ (n + 1) :=
        pow_le_pow_left₀ h1.le (by linarith) _
      have hterm : cp / (1 + r2) ^ (n + 1) ≤ cp / (1 + r1) ^ (n + 1) := by
        rw [div_eq_mul_inv, div_eq_mul_inv]
        exact mul_le_mul_of_nonneg_left (inv_anti₀ hpow1 hpow) hcp
      exact add_le_add ih hterm

lemma price_strictAnti (face cp : ℚ) (hface : 0 < face) (hcp : 0 ≤ cp)
    {N : ℕ} (hN : 1 ≤ N) {r1 r2 : ℚ} (h1 : 0 ≤ r1) (h12 : r1 < r2) :
    couponLoop cp r2 N + face / (1 + r2) ^ N < couponLoop cp r1 N + face / (1 + r1) ^ N := by
  have ha1 : 0 < 1 + r1 := by linarith
  have hpow1 : 0 < (1 + r1) ^ N := pow_pos ha1 _
  have hpowlt : (1 + r1) ^ N < (1 + r2) ^ N :=
    pow_lt_pow_left₀ (by linarith) ha1.le (by omega)
  have hface_lt : face / (1 + r2) ^ N < face / (1 + r1) ^ N :=
    div_lt_div_of_pos_left hface hpow1 hpowlt
  exact add_lt_add_of_le_of_lt (couponLoop_anti cp hcp ha1 h12.le N) hface_lt

/-- C7: for a valid spec (positive face value, nonnegative coupon rate,
`periods ≥ 1`) the price returned by `bond_pricer` is strictly decreasing in
the discount rate over `0 ≤ r1 < r2`. -/
theorem bond_pricer_strict_decreasing (face coupon years : ℚ) (f : String) (m : ℕ)
    (hm : get_payments_per_year f = some m)
    (hface : 0 < face) (hcoupon : 0 ≤ coupon)
    (hp : 1 ≤ pyInt (years * (m : ℚ)))
    (r1 r2 : ℚ) (h1 : 0 ≤ r1) (h12 : r1 < r2) :
    ∃ p1 p2, bond_pricer face coupon years r1 f = some p1 ∧
      bond_pricer face coupon years r2 f = some p2 ∧ p2 < p1 := by
  have hm0 : (0 : ℚ) < (m : ℚ) := get_payments_per_year_cast_pos hm
  have hq1 : 0 ≤ r1 / (m : ℚ) := div_nonneg h1 hm0.le
  have hq12 : r1 / (m : ℚ) < r2 / (m : ℚ) := by
    rw [div_lt_div_iff_of_pos_right hm0]
    exact h12
  have hne1 : 1 + r1 / (m : ℚ) ≠ 0 := by
    have : 0 < 1 + r1 / (m : ℚ) := by linarith
    exact ne_of_gt this
  have hne2 : 1 + r2 / (m : ℚ) ≠ 0 := by
    have : 0 < 1 + r2 / (m : ℚ) := by linarith
    exact ne_of_gt this
  have hNge : 1 ≤ (pyInt (years * (m : ℚ))).toNat := by omega
  have hz : ∀ r : ℚ, (1 + r) ^ (pyInt (years * (m : ℚ)))
      = (1 + r) ^ (pyInt (years * (m : ℚ))).toNat :=
    fun r => zpow_nonneg_toNat _ (by omega)
  refine ⟨_, _, bond_pricer_eq hm face coupon years r1 hne1,
    bond_pricer_eq hm face coupon years r2 hne2, ?_⟩
  rw [hz, hz]
  exact price_strictAnti face (face * (coupon / (m : ℚ))) hface
    (mul_nonneg hface.le (div_nonneg hcoupon hm0.le)) hNge hq1 hq12

/-- Witness for C7: 2-year Annual bond priced at 5% versus 10%. -/
theorem bond_pricer_strict_decreasing_witness :
    (0 : ℚ) < 1000 ∧ (0 : ℚ) ≤ 1 / 20 ∧ 1 ≤ pyInt ((2 : ℚ) * ((1 : ℕ) : ℚ)) ∧
    (0 : ℚ) ≤ 1 / 20 ∧ (1 / 20 : ℚ) < 1 / 10 ∧
    ∃ p1 p2, bond_pricer 1000 (1 / 20) 2 (1 / 20) "Annual" = some p1 ∧
      bond_pricer 1000 (1 / 20) 2 (1 / 10) "Annual" = some p2 ∧ p2 < p1 :=
  ⟨by norm_num, by norm_num, by norm_num [pyInt], by norm_num, by norm_num,
    bond_pricer_strict_decreasing 1000 (1 / 20) 2 "Annual" 1 rfl (by norm_num) (by norm_num)
      (by norm_num [pyInt]) (1 / 20) (1 / 10) (by norm_num) (by norm_num)⟩

/-! ### The bisection loop: totality, bracketing and width -/

lemma bisect_total (f : ℚ → Option ℚ) (n : ℕ) :
    ∀ lo hi : ℚ, lo ≤ hi → (∀ x, lo ≤ x → x ≤ hi → ∃ v, f x = some v) →
      ∃ lo2 hi2, bisect f n lo hi = some (lo2, hi2) ∧ lo ≤ lo2 ∧ lo2 ≤ hi2 ∧ hi2 ≤ hi ∧
        hi2 - lo2 = (hi - lo) / 2 ^ n := by
  induction n with
  | zero =>
      intro lo hi hle _
      exact ⟨lo, hi, rfl, le_refl _, hle, le_refl _, by norm_num⟩
  | succ n ih =>
      intro lo hi hle hf
      have hmid1 : lo ≤ (lo + hi) / 2 := by linarith
      have hmid2 : (lo + hi) / 2 ≤ hi := by linarith
      obtain ⟨v, hv⟩ := hf _ hmid1 hmid2
      rw [bisect, hv]
      dsimp only
      by_cases h0 : 0 < v
      · rw [if_pos h0]
        obtain ⟨lo2, hi2, heq, ha, hb, hc, hw⟩ :=
          ih ((lo + hi) / 2) hi hmid2 (fun x hx1 hx2 => hf x (le_trans hmid1 hx1) hx2)
        exact ⟨lo2, hi2, heq, le_trans hmid1 ha, hb, hc, by rw [hw, pow_succ]; ring⟩
      · rw [if_neg h0]
        obtain ⟨lo2, hi2, heq, ha, hb, hc, hw⟩ :=
          ih lo ((lo + hi) / 2) hmid1 (fun x hx1 hx2 => hf x hx1 (le_trans hx2 hmid2))
        exact ⟨lo2, hi2, heq, ha, hb, le_trans hc hmid2, by rw [hw, pow_succ]; ring⟩

lemma bisect_bracket (f : ℚ → Option ℚ) (g : ℚ → ℚ) (r : ℚ)
    (hfg : ∀ x, 0 ≤ x → x ≤ 1 → f x = some (g x))
    (hg : ∀ x, 0 ≤ x → x ≤ 1 → (0 < g x ↔ x < r))
    (n : ℕ) :
    ∀ lo hi : ℚ, 0 ≤ lo → lo < r → r ≤ hi → hi ≤ 1 →
      ∃ lo2 hi2, bisect f n lo hi = some (lo2, hi2) ∧
        0 ≤ lo2 ∧ lo2 < r ∧ r ≤ hi2 ∧ hi2 ≤ 1 ∧ hi2 - lo2 = (hi - lo) / 2 ^ n := by
  induction n with
  | zero =>
      intro lo hi h0 h1 h2 h3
      exact ⟨lo, hi, rfl, h0, h1, h2, h3, by norm_num⟩
  | succ n ih =>
      intro lo hi h0 h1 h2 h3
      have hle : lo ≤ hi := le_trans h1.le h2
      have hmid0 : 0 ≤ (lo + hi) / 2 := by linarith
      have hmid1 : (lo + hi) / 2 ≤ 1 := by linarith
      rw [bisect, hfg _ hmid0 hmid1]
      dsimp only
      by_cases hpos : 0 < g ((lo + hi) / 2)
      · rw [if_pos hpos]
        have hmidr : (lo + hi) / 2 < r := (hg _ hmid0 hmid1).mp hpos
        obtain ⟨lo2, hi2, heq, ha, hb, hc, hd, hw⟩ := ih ((lo + hi) / 2) hi hmid0 hmidr h2 h3
        exact ⟨lo2, hi2, heq, ha, hb, hc, hd, by rw [hw, pow_succ]; ring⟩
      · rw [if_neg hpos]
        have hrmid : r ≤ (lo + hi) / 2 := by
          by_contra hlt
          exact hpos ((hg _ hmid0 hmid1).mpr (by linarith))
        obtain ⟨lo2, hi2, heq, ha, hb, hc, hd, hw⟩ := ih lo ((lo + hi) / 2) h0 h1 hrmid hmid1
        exact ⟨lo2, hi2, heq, ha, hb, hc, hd, by rw [hw, pow_succ]; ring⟩

lemma npv_some (face pcr price : ℚ) (periods : ℤ) (m : ℕ) {x : ℚ} (hx0 : 0 ≤ x) :
    npv face pcr price periods m x
      = some (-price + couponLoop (face * pcr) (x / (m : ℚ)) periods.toNat
              + face / (1 + x / (m : ℚ)) ^ periods) := by
  unfold npv
  rw [if_neg]
  rintro ⟨hc, -⟩
  have hd : 0 ≤ x / (m : ℚ) := div_nonneg hx0 (Nat.cast_nonneg m)
  linarith

/-- C6: for every input (any face value, coupon rate, maturity and target
price) over a supported frequency, the yield solver performs exactly 50
halvings of the bracket `[0, 1]` — the final bracket has width `1 / 2 ^ 50`
— raises no error, and returns the midpoint of the final bracket, a value
that always lies inside `[0, 1]`. -/
theorem ytm_always_bounded (face coupon years price : ℚ) (f : String) (m : ℕ)
    (hm : get_payments_per_year f = some m) :
    ∃ lo hi : ℚ,
      bisect (npv face (coupon / (m : ℚ)) price (pyInt (years * (m : ℚ))) m) 50 0 1
        = some (lo, hi) ∧
      hi - lo = 1 / 2 ^ 50 ∧
      calculate_yield_to_maturity face coupon years price f = some ((lo + hi) / 2) ∧
      0 ≤ (lo + hi) / 2 ∧ (lo + hi) / 2 ≤ 1 := by
  obtain ⟨lo, hi, heq, ha, hb, hc, hw⟩ :=
    bisect_total (npv face (coupon / (m : ℚ)) price (pyInt (years * (m : ℚ))) m) 50 0 1
      (by norm_num)
      (fun x hx0 _ => ⟨_, npv_some face (coupon / (m : ℚ)) price _ m hx0⟩)
  refine ⟨lo, hi, heq, by rw [hw]; norm_num, ?_, by linarith, by linarith⟩
  unfold calculate_yield_to_maturity
  rw [hm, adjust_eq hm]
  dsimp only
  rw [heq]
  rfl

/-- Witness for C6: Semi-annual frequency with a price (5000) far above any
repriceable value, so the true yield lies outside `[0, 1]`; the solver still
returns an in-range midpoint without failing. -/
theorem ytm_always_bounded_witness :
    get_payments_per_year "Semi-annual" = some 2 ∧
    ∃ lo hi : ℚ,
      bisect (npv 1000 ((1 / 20) / ((2 : ℕ) : ℚ)) 5000 (pyInt ((10 : ℚ) * ((2 : ℕ) : ℚ))) 2)
          50 0 1 = some (lo, hi) ∧
      hi - lo = 1 / 2 ^ 50 ∧
      calculate_yield_to_maturity 1000 (1 / 20) 10 5000 "Semi-annual" = some ((lo + hi) / 2) ∧
      0 ≤ (lo + hi) / 2 ∧ (lo + hi) / 2 ≤ 1 :=
  ⟨rfl, ytm_always_bounded 1000 (1 / 20) 10 5000 "Semi-annual" 2 rfl⟩

lemma ytm_bisect_roundtrip (face pcr price rate : ℚ) (m : ℕ) (P : ℤ)
    (hm0 : (0 : ℚ) < (m : ℚ)) (hface : 0 < face) (hpcr : 0 ≤ pcr)
    (hP : 1 ≤ P)
    (hprice : price = couponLoop (face * pcr) (rate / (m : ℚ)) P.toNat
        + face / (1 + rate / (m : ℚ)) ^ P)
    (hr0 : 0 < rate) (hr1 : rate < 1 / 2) :
    ∃ lo hi, bisect (npv face pcr price P m) 50 0 1 = some (lo, hi) ∧
      |((lo + hi) / 2) - rate| ≤ 1 / 1000000 := by
  have hcp : 0 ≤ face * pcr := mul_nonneg hface.le hpcr
  have hN : 1 ≤ P.toNat := by omega
  have hz : ∀ q : ℚ, q ^ P = q ^ P.toNat := fun q => zpow_nonneg_toNat q (by omega)
  have hfg : ∀ x, 0 ≤ x → x ≤ 1 → npv face pcr price P m x
      = some ((fun t => -price + couponLoop (face * pcr) (t / (m : ℚ)) P.toNat
              + face / (1 + t / (m : ℚ)) ^ P) x) :=
    fun x hx0 _ => npv_some face pcr price P m hx0
  have hsign : ∀ x, 0 ≤ x → x ≤ 1 →
      (0 < (fun t => -price + couponLoop (face * pcr) (t / (m : ℚ)) P.toNat
              + face / (1 + t / (m : ℚ)) ^ P) x ↔ x < rate) := by
    intro x hx0 _
    have hxq : 0 ≤ x / (m : ℚ) := div_nonneg hx0 hm0.le
    have hrq : 0 ≤ rate / (m : ℚ) := div_nonneg hr0.le hm0.le
    dsimp only
    rw [hprice]
    simp only [hz]
    constructor
    · intro hpos
      by_contra hxr
      rcases eq_or_lt_of_le (not_lt.mp hxr) with heq | hlt
      · rw [← heq] at hpos
        linarith
      · have hmono := price_strictAnti face (face * pcr) hface hcp hN hrq
          ((div_lt_div_iff_of_pos_right hm0).mpr hlt)
        linarith
    · intro hxr
      have hmono := price_strictAnti face (face * pcr) hface hcp hN hxq
        ((div_lt_div_iff_of_pos_right hm0).mpr hxr)
      linarith
  obtain ⟨lo, hi, heq, h0, h1, h2, h3, hw⟩ :=
    bisect_bracket (npv face pcr price P m)
      (fun t => -price + couponLoop (face * pcr) (t / (m : ℚ)) P.toNat
        + face / (1 + t / (m : ℚ)) ^ P) rate hfg hsign 50 0 1
      le_rfl hr0 (by linarith) le_rfl
  refine ⟨lo, hi, heq, ?_⟩
  have hwv : hi - lo = 1 / 2 ^ 50 := by
    rw [hw]
    norm_num
  have habs : |((lo + hi) / 2) - rate| ≤ 1 / 2 ^ 50 := by
    rw [abs_le]
    constructor
    · linarith
    · linarith
  calc |((lo + hi) / 2) - rate| ≤ 1 / 2 ^ 50 := habs
    _ ≤ 1 / 1000000 := by norm_num

/-- C1: round-trip — for every valid spec (positive face value, nonnegative
coupon rate, `periods ≥ 1`) and every discount rate in `(0, 1/2)`, feeding
the price produced by `bond_pricer` back into `calculate_yield_to_maturity`
recovers the discount rate to within `1e-6` (in fact to within `1/2^50`). -/
theorem ytm_roundtrip (face coupon years rate : ℚ) (f : String) (m : ℕ)
    (hm : get_payments_per_year f = some m)
    (hface : 0 < face) (hcoupon : 0 ≤ coupon)
    (hp : 1 ≤ pyInt (years * (m : ℚ)))
    (hr0 : 0 < rate) (hr1 : rate < 1 / 2) :
    ∃ p y, bond_pricer face coupon years rate f = some p ∧
      calculate_yield_to_maturity face coupon years p f = some y ∧
      |y - rate| ≤ 1 / 1000000 := by
  have hm0 : (0 : ℚ) < (m : ℚ) := get_payments_per_year_cast_pos hm
  have hne : 1 + rate / (m : ℚ) ≠ 0 := by
    have hd : 0 ≤ rate / (m : ℚ) := div_nonneg hr0.le hm0.le
    intro h
    linarith
  obtain ⟨lo, hi, hbis, habs⟩ :=
    ytm_bisect_roundtrip face (coupon / (m : ℚ))
      (couponLoop (face * (coupon / (m : ℚ))) (rate / (m : ℚ)) (pyInt (years * (m : ℚ))).toNat
        + face / (1 + rate / (m : ℚ)) ^ (pyInt (years * (m : ℚ)))) rate m
      (pyInt (years * (m : ℚ))) hm0 hface (div_nonneg hcoupon hm0.le) hp rfl hr0 hr1
  refine ⟨_, (lo + hi) / 2, bond_pricer_eq hm face coupon years rate hne, ?_, habs⟩
  unfold calculate_yield_to_maturity
  rw [hm, adjust_eq hm]
  dsimp only
  rw [hbis]
  rfl

/-- Witness for C1: 1-year Annual bond, face 1000, coupon 5%, rate 25%. -/
theorem ytm_roundtrip_witness :
    get_payments_per_year "Annual" = some 1 ∧ (0 : ℚ) < 1000 ∧ (0 : ℚ) ≤ 1 / 20 ∧
    1 ≤ pyInt ((1 : ℚ) * ((1 : ℕ) : ℚ)) ∧ (0 : ℚ) < 1 / 4 ∧ (1 / 4 : ℚ) < 1 / 2 ∧
    ∃ p y, bond_pricer 1000 (1 / 20) 1 (1 / 4) "Annual" = some p ∧
      calculate_yield_to_maturity 1000 (1 / 20) 1 p "Annual" = some y ∧
      |y - 1 / 4| ≤ 1 / 1000000 :=
  ⟨rfl, by norm_num, by norm_num, by norm_num [pyInt], by norm_num, by norm_num,
    ytm_roundtrip 1000 (1 / 20) 1 (1 / 4) "Annual" 1 rfl (by norm_num) (by norm_num)
      (by norm_num [pyInt]) (by norm_num) (by norm_num)⟩

/-! ### Risk-metric loops as sums, and the reference schedule of the spec -/

lemma durationLoop_fst (cp r : ℚ) (m : ℕ) (n : ℕ) :
    (durationLoop cp r m n).1
      = ∑ i ∈ Finset.Icc 1 n, ((i : ℚ) / (m : ℚ)) * (cp / (1 + r) ^ i) := by
  induction n with
  | zero => simp [durationLoop]
  | succ n ih =>
      rw [durationLoop, Finset.sum_Icc_succ_top (by omega : 1 ≤ n + 1), ← ih]

lemma durationLoop_snd (cp r : ℚ) (m : ℕ) (n : ℕ) :
    (durationLoop cp r m n).2 = ∑ i ∈ Finset.Icc 1 n, cp / (1 + r) ^ i := by
  induction n with
  | zero => simp [durationLoop]
  | succ n ih =>
      rw [durationLoop, Finset.sum_Icc_succ_top (by omega : 1 ≤ n + 1), ← ih]

lemma convexityLoop_fst (cp r : ℚ) (m : ℕ) (n : ℕ) :
    (convexityLoop cp r m n).1
      = ∑ i ∈ Finset.Icc 1 n,
          ((i : ℚ) / (m : ℚ)) * (((i : ℚ) / (m : ℚ)) + 1 / (m : ℚ)) * (cp / (1 + r) ^ i) := by
  induction n with
  | zero => simp [convexityLoop]
  | succ n ih =>
      rw [convexityLoop, Finset.sum_Icc_succ_top (by omega : 1 ≤ n + 1), ← ih]

lemma convexityLoop_snd (cp r : ℚ) (m : ℕ) (n : ℕ) :
    (convexityLoop cp r m n).2 = ∑ i ∈ Finset.Icc 1 n, cp / (1 + r) ^ i := by
  induction n with
  | zero => simp [convexityLoop]
  | succ n ih =>
      rw [convexityLoop, Finset.sum_Icc_succ_top (by omega : 1 ≤ n + 1), ← ih]

lemma sum_specPV_weighted (face cp pr : ℚ) {p : ℕ} (hp : 1 ≤ p) (w : ℕ → ℚ) :
    ∑ i ∈ Finset.Icc 1 p, w i * specPV face cp pr p i
      = (∑ i ∈ Finset.Icc 1 p, w i * (cp / (1 + pr) ^ i)) + w p * (face / (1 + pr) ^ p) := by
  have hsplit : ∀ i ∈ Finset.Icc 1 p, w i * specPV face cp pr p i
      = w i * (cp / (1 + pr) ^ i) + (if i = p then w i * (face / (1 + pr) ^ i) else 0) := by
    intro i _
    unfold specPV
    by_cases h : i = p
    · rw [if_pos h, if_pos h, add_div, mul_add]
    · rw [if_neg h, if_neg h, add_zero]
  rw [Finset.sum_congr rfl hsplit, Finset.sum_add_distrib]
  congr 1
  rw [Finset.sum_ite_eq' (Finset.Icc 1 p) p (fun i => w i * (face / (1 + pr) ^ i))]
  rw [if_pos (Finset.mem_Icc.mpr ⟨hp, le_refl p⟩)]

lemma sum_specPV (face cp pr : ℚ) {p : ℕ} (hp : 1 ≤ p) :
    ∑ i ∈ Finset.Icc 1 p, specPV face cp pr p i
      = (∑ i ∈ Finset.Icc 1 p, cp / (1 + pr) ^ i) + face / (1 + pr) ^ p := by
  have h := sum_specPV_weighted face cp pr hp (fun _ => 1)
  simpa using h


lemma duration_num_spec (face cp pr yq : ℚ) (m N : ℕ) (hN : 1 ≤ N)
    (hy : yq = ((N : ℕ) : ℚ) / (m : ℚ)) :
    (durationLoop cp pr m N).1 + yq * (face / (1 + pr) ^ N)
      = ∑ i ∈ Finset.Icc 1 N, ((i : ℚ) / (m : ℚ)) * specPV face cp pr N i := by
  rw [durationLoop_fst, hy, sum_specPV_weighted face cp pr hN (fun i => (i : ℚ) / (m : ℚ))]

lemma duration_den_spec (face cp pr : ℚ) (m N : ℕ) (hN : 1 ≤ N) :
    (durationLoop cp pr m N).2 + face / (1 + pr) ^ N
      = ∑ i ∈ Finset.Icc 1 N, specPV face cp pr N i := by
  rw [durationLoop_snd]
  exact (sum_specPV face cp pr hN).symm

lemma convexity_num_spec (face cp pr yq : ℚ) (m N : ℕ) (hN : 1 ≤ N)
    (hy : yq = ((N : ℕ) : ℚ) / (m : ℚ)) :
    (convexityLoop cp pr m N).1 + yq * (yq + 1 / (m : ℚ)) * (face / (1 + pr) ^ N)
      = ∑ i ∈ Finset.Icc 1 N,
          ((i : ℚ) / (m : ℚ)) * (((i : ℚ) / (m : ℚ)) + 1 / (m : ℚ)) * specPV face cp pr N i := by
  rw [convexityLoop_fst, hy, sum_specPV_weighted face cp pr hN
    (fun i => ((i : ℚ) / (m : ℚ)) * (((i : ℚ) / (m : ℚ)) + 1 / (m : ℚ)))]

lemma convexity_den_spec (face cp pr : ℚ) (m N : ℕ) (hN : 1 ≤ N) :
    (convexityLoop cp pr m N).2 + face / (1 + pr) ^ N
      = ∑ i ∈ Finset.Icc 1 N, specPV face cp pr N i := by
  rw [convexityLoop_snd]
  exact (sum_specPV face cp pr hN).symm


/-- C2 (amended): for a valid input whose maturity is a whole number of
periods (`years_to_maturity * payments_per_year` integral — exactly the case
in which the code's final time weight `years_to_maturity` coincides with
`periods / payments_per_year`), `calculate_duration` and
`calculate_convexity` return exactly the spec reference formulas over the
schedule with `time_i = i / payments_per_year` at every period, the final
face-value period included. -/
theorem duration_convexity_match_spec (face coupon years rate : ℚ) (f : String) (m : ℕ)
    (hm : get_payments_per_year f = some m)
    (hface : 0 < face) (hcoupon : 0 ≤ coupon) (hrate : 0 ≤ rate)
    (hp : 1 ≤ pyInt (years * (m : ℚ)))
    (hint : years * (m : ℚ) = ((pyInt (years * (m : ℚ)) : ℤ) : ℚ)) :
    calculate_duration face coupon years rate f
      = some (specMacaulay face (face * (coupon / (m : ℚ))) (rate / (m : ℚ)) m
                (pyInt (years * (m : ℚ))).toNat,
              specModified face (face * (coupon / (m : ℚ))) (rate / (m : ℚ)) m
                (pyInt (years * (m : ℚ))).toNat) ∧
    calculate_convexity face coupon years rate f
      = some (specConvexity face (face * (coupon / (m : ℚ))) (rate / (m : ℚ)) m
                (pyInt (years * (m : ℚ))).toNat) := by
  have hm0 : (0 : ℚ) < (m : ℚ) := get_payments_per_year_cast_pos hm
  have hpr0 : 0 ≤ rate / (m : ℚ) := div_nonneg hrate hm0.le
  have hpr1 : 0 < 1 + rate / (m : ℚ) := by linarith
  have hPnn : (0 : ℤ) ≤ pyInt (years * (m : ℚ)) := by omega
  have hN1 : 1 ≤ (pyInt (years * (m : ℚ))).toNat := by omega
  have hz : (1 + rate / (m : ℚ)) ^ (pyInt (years * (m : ℚ)))
      = (1 + rate / (m : ℚ)) ^ (pyInt (years * (m : ℚ))).toNat :=
    zpow_nonneg_toNat _ hPnn
  have hcast : ((pyInt (years * (m : ℚ)) : ℤ) : ℚ)
      = (((pyInt (years * (m : ℚ))).toNat : ℕ) : ℚ) := by
    exact_mod_cast (Int.toNat_of_nonneg hPnn).symm
  have hyears : years = (((pyInt (years * (m : ℚ))).toNat : ℕ) : ℚ) / (m : ℚ) := by
    have h1 := hint
    rw [hcast] at h1
    exact (eq_div_iff (ne_of_gt hm0)).mpr h1
  have hcp : 0 ≤ face * (coupon / (m : ℚ)) := mul_nonneg hface.le (div_nonneg hcoupon hm0.le)
  have hPV : 0 < (∑ i ∈ Finset.Icc 1 (pyInt (years * (m : ℚ))).toNat,
      face * (coupon / (m : ℚ)) / (1 + rate / (m : ℚ)) ^ i)
      + face / (1 + rate / (m : ℚ)) ^ (pyInt (years * (m : ℚ))).toNat := by
    have hs : 0 ≤ ∑ i ∈ Finset.Icc 1 (pyInt (years * (m : ℚ))).toNat,
        face * (coupon / (m : ℚ)) / (1 + rate / (m : ℚ)) ^ i :=
      Finset.sum_nonneg (fun i _ => div_nonneg hcp (pow_pos hpr1 i).le)
    have hF : 0 < face / (1 + rate / (m : ℚ)) ^ (pyInt (years * (m : ℚ))).toNat :=
      div_pos hface (pow_pos hpr1 _)
    linarith
  constructor
  · unfold calculate_duration
    rw [hm, adjust_eq hm, adjust_eq hm]
    dsimp only
    rw [hz, durationLoop_snd]
    rw [if_neg (by push_neg; exact ⟨ne_of_gt hpr1, ne_of_gt hPV⟩)]
    rw [duration_num_spec face (face * (coupon / (m : ℚ))) (rate / (m : ℚ)) years m
      (pyInt (years * (m : ℚ))).toNat hN1 hyears]
    rw [← sum_specPV face (face * (coupon / (m : ℚ))) (rate / (m : ℚ)) hN1]
    unfold specMacaulay specModified
    rfl
  · unfold calculate_convexity
    rw [hm, adjust_eq hm, adjust_eq hm]
    dsimp only
    rw [hz, convexityLoop_snd]
    rw [if_neg (by push_neg; exact ⟨ne_of_gt hpr1, ne_of_gt hPV⟩)]
    rw [convexity_num_spec face (face * (coupon / (m : ℚ))) (rate / (m : ℚ)) years m
      (pyInt (years * (m : ℚ))).toNat hN1 hyears]
    rw [← sum_specPV face (face * (coupon / (m : ℚ))) (rate / (m : ℚ)) hN1]
    unfold specConvexity
    rfl

/-- C2 (counterexample to the claim as stated): a valid 1.5-year Annual
zero-coupon bond has `periods = 1`; the code weights the face value by
`years_to_maturity = 3/2`, giving Macaulay duration `3/2`, while the claimed
formula with `time_i = i / payments_per_year` at every period gives `1`. -/
theorem duration_time_weight_counterexample :
    calculate_duration 1000 0 (3 / 2) 0 "Annual" = some (3 / 2, 3 / 2) ∧
    specMacaulay 1000 (1000 * ((0 : ℚ) / ((1 : ℕ) : ℚ))) ((0 : ℚ) / ((1 : ℕ) : ℚ)) 1
      (pyInt ((3 / 2 : ℚ) * ((1 : ℕ) : ℚ))).toNat = 1 ∧
    some ((3 / 2 : ℚ), (3 / 2 : ℚ)) ≠ some ((1 : ℚ), (1 : ℚ)) := by
  have hpy : pyInt ((3 / 2 : ℚ) * ((1 : ℕ) : ℚ)) = 1 := by norm_num [pyInt]
  refine ⟨?_, ?_, by norm_num⟩
  · unfold calculate_duration
    rw [get_annual, adjust_eq get_annual]
    dsimp only
    rw [hpy]
    norm_num [durationLoop_fst, durationLoop_snd, Finset.Icc_self, Finset.sum_singleton,
      zpow_one]
  · rw [hpy]
    unfold specMacaulay specPV
    norm_num [Finset.Icc_self, Finset.sum_singleton]

/-- Witness for C2 (amended): 2-year Annual bond, 5% coupon, 10% rate —
an integral number of periods. -/
theorem duration_convexity_match_spec_witness :
    get_payments_per_year "Annual" = some 1 ∧ (0 : ℚ) < 1000 ∧ (0 : ℚ) ≤ 1 / 20 ∧
    (0 : ℚ) ≤ 1 / 10 ∧ 1 ≤ pyInt ((2 : ℚ) * ((1 : ℕ) : ℚ)) ∧
    (2 : ℚ) * ((1 : ℕ) : ℚ) = ((pyInt ((2 : ℚ) * ((1 : ℕ) : ℚ)) : ℤ) : ℚ) ∧
    (calculate_duration 1000 (1 / 20) 2 (1 / 10) "Annual"
        = some (specMacaulay 1000 (1000 * ((1 / 20) / ((1 : ℕ) : ℚ))) ((1 / 10) / ((1 : ℕ) : ℚ)) 1
                  (pyInt ((2 : ℚ) * ((1 : ℕ) : ℚ))).toNat,
                specModified 1000 (1000 * ((1 / 20) / ((1 : ℕ) : ℚ))) ((1 / 10) / ((1 : ℕ) : ℚ)) 1
                  (pyInt ((2 : ℚ) * ((1 : ℕ) : ℚ))).toNat) ∧
      calculate_convexity 1000 (1 / 20) 2 (1 / 10) "Annual"
        = some (specConvexity 1000 (1000 * ((1 / 20) / ((1 : ℕ) : ℚ))) ((1 / 10) / ((1 : ℕ) : ℚ)) 1
                  (pyInt ((2 : ℚ) * ((1 : ℕ) : ℚ))).toNat)) :=
  ⟨rfl, by norm_num, by norm_num, by norm_num, by norm_num [pyInt], by norm_num [pyInt],
    duration_convexity_match_spec 1000 (1 / 20) 2 (1 / 10) "Annual" 1 rfl (by norm_num)
      (by norm_num) (by norm_num) (by norm_num [pyInt]) (by norm_num [pyInt])⟩
